import Mathlib

/-!
Verification development for the UsergeTeam/Loader repository.

The definitions below are a shallow embedding of the loader's core logic:

* `safe_url`   — token redaction (`loader/core/utils.py`, `_TOKEN.sub`)
* `grab_conflicts` — the requirement-conflict resolver (`loader/core/utils.py`)
* `Repos.add`  — plugin-repo registration with URL validation (`loader/core/types.py`)
* the git repo handle operations (`_BaseRepo` in `loader/core/types.py`)
* the plugin-selection part of `init_repos` (`loader/core/main.py`)
* the constraint engine (`_Constraints` in `loader/core/types.py`)

Python `dict`s are modelled as insertion-ordered association lists, Python
`set`s as duplicate-free lists (operations on them are order-insensitive
where the source's observable results are).  Python exceptions are modelled
by `Option`: a `none` result marks a code path on which the source raises.
-/

/-! ## Character class and token redaction (`utils.safe_url`)

The source compiles `_TOKEN = re.compile("ghp_[0-9A-z]{36}")` and
`safe_url(url)` returns `_TOKEN.sub('private', url)`.  The character class
`[0-9A-z]` covers the code points of `0`-`9` and `A`-`z` (which includes
the punctuation between `Z` and `a`, in particular `_`). -/

/-- Membership in the regex character class `[0-9A-z]` (by code point). -/
def isClass (c : Char) : Bool :=
  (('0' ≤ c) && (c ≤ '9')) || (('A' ≤ c) && (c ≤ 'z'))

/-- The literal prefix `ghp_` of the token pattern. -/
def ghpPre : List Char := ['g', 'h', 'p', '_']

/-- The replacement text `private` used by `_TOKEN.sub`. -/
def privateChars : List Char := ['p', 'r', 'i', 'v', 'a', 't', 'e']

/-- Try to match `ghp_[0-9A-z]{36}` at the head of `l`; on success return the
remainder after the 40 matched characters. -/
def ghpMatch (l : List Char) : Option (List Char) :=
  if l.take 4 = ghpPre ∧ 40 ≤ l.length ∧ ((l.drop 4).take 36).all isClass then
    some (l.drop 40)
  else none

/-- Fuelled scanner for `re.sub`: at each position, replace a leftmost
non-overlapping match of the token pattern by `private`, otherwise copy one
character.  The fuel only serves structural recursion; `reSub` supplies a
sufficient amount. -/
def subFuel : Nat → List Char → List Char
  | _, [] => []
  | 0, _ :: _ => []
  | fuel + 1, c :: cs =>
    match ghpMatch (c :: cs) with
    | some rest => privateChars ++ subFuel fuel rest
    | none => c :: subFuel fuel cs

/-- `re.sub` of the token pattern with `private` over a character list. -/
def reSub (l : List Char) : List Char := subFuel l.length l

/-- `utils.safe_url`: redact embedded access tokens. -/
def safe_url (s : String) : String := ⟨reSub s.data⟩

/-! ## Requirement resolver (`utils.grab_conflicts`)

The source parses each requirement with
`_REQUIREMENTS = re.compile(r'(\S+)(<=|<|==|>=|>|!=|~=)(\S+)')`, groups the
specifiers by package name and version, and runs a pattern-driven pruning
pass over the operator sets.  Operators are modelled by `Op`. -/

/-- The seven specifier operators recognised by `_REQUIREMENTS`. -/
inductive Op where
  | gt
  | ge
  | eq
  | le
  | lt
  | neq
  | tilde
deriving DecidableEq

/-- Render an operator back to its source text. -/
def Op.str : Op → String
  | .gt => ">"
  | .ge => ">="
  | .eq => "=="
  | .le => "<="
  | .lt => "<"
  | .neq => "!="
  | .tilde => "~="

/-- The `sequence` tuple of the source: `((>,>=,!=), (>=,==,<=), (<=,<,!=))`. -/
def opSequence : List (List Op) := [[.gt, .ge, .neq], [.ge, .eq, .le], [.le, .lt, .neq]]

/-- `itertools.combinations(seq, 2)` for a list, in the same order. -/
def combos2 : List Op → List (List Op)
  | [] => []
  | x :: xs => xs.map (fun y => [x, y]) ++ combos2 xs

/-- The `pattern` tuple as the source builds it from `sequence`. -/
def genPattern : List (List Op) :=
  (List.range opSequence.length).foldl
    (fun acc i =>
      let seq := opSequence.getD i []
      acc ++ [seq] ++ combos2 seq ++ (List.range (i + 1)).map (fun j => [seq.getD j .gt]))
    []

/-- The pattern list written out literally (18 entries, ending in `(!=)`). -/
def litPattern : List (List Op) :=
  [[.gt, .ge, .neq], [.gt, .ge], [.gt, .neq], [.ge, .neq], [.gt],
   [.ge, .eq, .le], [.ge, .eq], [.ge, .le], [.eq, .le], [.ge], [.eq],
   [.le, .lt, .neq], [.le, .lt], [.le, .neq], [.lt, .neq], [.le], [.lt], [.neq]]

/-- Modelled from the spec: the 17 operator-combination patterns the spec
lists for the resolver (the spec omits the trailing `(!=)` pattern). -/
def claimPattern : List (List Op) :=
  [[.gt, .ge, .neq], [.gt, .ge], [.gt, .neq], [.ge, .neq], [.gt],
   [.ge, .eq, .le], [.ge, .eq], [.ge, .le], [.eq, .le], [.ge], [.eq],
   [.le, .lt, .neq], [.le, .lt], [.le, .neq], [.lt, .neq], [.le], [.lt]]

/-- Group 3 of `_REQUIREMENTS` is `\S+`: the next character must exist and be
non-whitespace. -/
def vsOk : List Char → Bool
  | [] => false
  | c :: _ => !c.isWhitespace

/-- Try the operator alternatives `<=|<|==|>=|>|!=|~=` in this order at the
head of `l`, each followed by at least one non-whitespace character (the
regex backtracks to the next alternative when `\S+` cannot match). -/
def opAt (l : List Char) : Option (Op × List Char) :=
  if l.take 2 = ['<', '='] ∧ vsOk (l.drop 2) then some (.le, l.drop 2)
  else if l.take 1 = ['<'] ∧ vsOk (l.drop 1) then some (.lt, l.drop 1)
  else if l.take 2 = ['=', '='] ∧ vsOk (l.drop 2) then some (.eq, l.drop 2)
  else if l.take 2 = ['>', '='] ∧ vsOk (l.drop 2) then some (.ge, l.drop 2)
  else if l.take 1 = ['>'] ∧ vsOk (l.drop 1) then some (.gt, l.drop 1)
  else if l.take 2 = ['!', '='] ∧ vsOk (l.drop 2) then some (.neq, l.drop 2)
  else if l.take 2 = ['~', '='] ∧ vsOk (l.drop 2) then some (.tilde, l.drop 2)
  else none

/-- Backtracking over the greedy group 1 (`\S+`): try the longest prefix
length first and shorten it until the operator alternatives match. -/
def reqSplitFrom : Nat → List Char → Option (String × Op × String)
  | 0, _ => none
  | k + 1, l =>
    match opAt (l.drop (k + 1)) with
    | some (op, rest) =>
      some (⟨l.take (k + 1)⟩, op, ⟨rest.takeWhile (fun c => !c.isWhitespace)⟩)
    | none => reqSplitFrom k l

/-- `_REQUIREMENTS.match(req)`: `(name, operator, version)` on success. -/
def reqMatch (s : String) : Option (String × Op × String) :=
  reqSplitFrom (s.data.takeWhile (fun c => !c.isWhitespace)).length s.data

/-- An operator set (`versions[version]` in the source, a Python `set`). -/
abbrev OpSet := List Op

/-- The per-package version dictionary (`to_audit[name]`), insertion ordered. -/
abbrev VerMap := List (String × OpSet)

/-- The `to_audit` dictionary, insertion ordered. -/
abbrev Audit := List (String × VerMap)

/-- Python `set.add` on an operator set. -/
def setInsertOp (s : OpSet) (o : Op) : OpSet := if o ∈ s then s else s ++ [o]

/-- Record one operator under `to_audit[name][ver]`; `~=` is normalised to
`>=` before insertion, exactly as the source does. -/
def verInsert (vm : VerMap) (ver : String) (op : Op) : VerMap :=
  let o := if op = .tilde then .ge else op
  if (vm.find? (·.1 == ver)).isSome then
    vm.map (fun va => if va.1 == ver then (va.1, setInsertOp va.2 o) else va)
  else vm ++ [(ver, [o])]

/-- Record one parsed requirement in the audit dictionary. -/
def auditInsert (a : Audit) (name : String) (op : Op) (ver : String) : Audit :=
  if (a.find? (·.1 == name)).isSome then
    a.map (fun nv => if nv.1 == name then (nv.1, verInsert nv.2 ver op) else nv)
  else a ++ [(name, verInsert [] ver op)]

/-- Build `to_audit` from the requirement strings.  Only requirements that
contain one of `=`, `>`, `<` are considered (the source's `filter`); a
filtered-in requirement that the regex does not match makes the source raise
`AttributeError`, modelled by `none`. -/
def buildAudit : List String → Audit → Option Audit
  | [], a => some a
  | r :: rs, a =>
    if r.data.any (fun c => c == '=' || c == '>' || c == '<') then
      match reqMatch r with
      | none => none
      | some (n, op, v) => buildAudit rs (auditInsert a n op v)
    else buildAudit rs a

/-- The first pattern (in `pattern` order) fully contained in `args`. -/
def firstMatching (pattern : List (List Op)) (args : OpSet) : Option (List Op) :=
  pattern.find? (fun check => check.all (fun o => args.contains o))

/-- Process one package's versions in descending order.  While no breakpoint
has been found, the first fully-contained pattern is removed and the
breakpoint flag is taken from `bp`; after the breakpoint, the operators of
`sequence[0]` (`>`, `>=`, `!=`) are removed from every later version. -/
def processVersions (pattern : List (List Op)) (bp : List Op → Bool) :
    VerMap → Bool → VerMap
  | [], _ => []
  | (v, args) :: rest, found =>
    if found then
      (v, args.filter (fun o => !(opSequence.getD 0 []).contains o)) ::
        processVersions pattern bp rest true
    else
      match firstMatching pattern args with
      | none => (v, args) :: processVersions pattern bp rest false
      | some check =>
        (v, args.filter (fun o => !check.contains o)) ::
          processVersions pattern bp rest (bp check)

/-- Lexicographic comparison of character lists by code point (Python string
comparison). -/
def listLt : List Char → List Char → Bool
  | [], [] => false
  | [], _ :: _ => true
  | _ :: _, [] => false
  | a :: as, b :: bs =>
    if a.toNat < b.toNat then true
    else if b.toNat < a.toNat then false
    else listLt as bs

/-- Python `<` on strings. -/
def strLt (a b : String) : Bool := listLt a.data b.data

/-- Python `str.startswith`. -/
def pyStartswith (s p : String) : Bool := p.data.isPrefixOf s.data

/-- Stable descending insertion by version string (Python `sorted(...,
reverse=True)`; string comparison is lexicographic over code points). -/
def insertVerDesc (x : String × OpSet) : VerMap → VerMap
  | [] => [x]
  | y :: ys => if strLt y.1 x.1 then x :: y :: ys else y :: insertVerDesc x ys

/-- Sort a version map by descending version string. -/
def sortVersDesc (vm : VerMap) : VerMap := vm.foldr insertVerDesc []

/-- The source's breakpoint condition:
`not any(map(check.__contains__, sequence[2]))`. -/
def bpCode (check : List Op) : Bool :=
  !((opSequence.getD 2 []).any (fun o => check.contains o))

/-- The breakpoint condition written out literally: a breakpoint is declared
exactly when the matched pattern contains none of `<=`, `<`, `!=`. -/
def bpLit (check : List Op) : Bool :=
  !(check.contains .le || check.contains .lt || check.contains .neq)

/-- Modelled from the spec: a breakpoint is declared unless the matched
pattern consisted only of "less-than" operators (`<=`, `<`). -/
def bpClaim (check : List Op) : Bool :=
  !(check.all (fun o => ([Op.le, Op.lt] : List Op).contains o))

/-- Rebuild the leftover specifiers as `name ++ op ++ version` strings (the
source collects them into a set; the list enumerates that set). -/
def collectConflicts (a : Audit) : List String :=
  a.foldl
    (fun acc nv =>
      acc ++ nv.2.foldl (fun ac va => ac ++ va.2.map (fun o => nv.1 ++ o.str ++ va.1)) [])
    []

/-- The resolver pipeline, parameterised by the pattern list and the
breakpoint condition so that the source's generated pattern and the written
out pattern can be compared. -/
def conflictsCore (pattern : List (List Op)) (bp : List Op → Bool)
    (reqs : List String) : Option (List String) :=
  match buildAudit reqs [] with
  | none => none
  | some a =>
    some (collectConflicts
      (a.map (fun nv => (nv.1, processVersions pattern bp (sortVersDesc nv.2) false))))

/-- `utils.grab_conflicts`, over a list enumerating the input set. -/
def grab_conflicts (reqs : List String) : Option (List String) :=
  conflictsCore genPattern bpCode reqs

/-- `grab_conflicts` with the pattern list and breakpoint condition written
out literally (used to state the amended C4). -/
def grab_conflictsLit (reqs : List String) : Option (List String) :=
  conflictsCore litPattern bpLit reqs

/-- Modelled from the spec: the resolver as claim C4 describes it, with the
17 listed patterns and the "only less-than operators" breakpoint rule. -/
def grab_conflictsClaim (reqs : List String) : Option (List String) :=
  conflictsCore claimPattern bpClaim reqs

/-- The input set of scenario 3 / claim C1, as a list. -/
def c1Input : List String := ["requests>=2.28", "requests<=2.0"]

/-! ## Plugin data model (`_Config`, `_Plugin` in `loader/core/types.py`)

`_Config` fields are all optional (the manifest parser yields `None` for a
missing or unparsable key).  Python sets are modelled as lists in iteration
order. -/

/-- The parsed plugin manifest (`_Config`). -/
structure PlgConfigM where
  available : Option Bool
  min_core : Option Int
  max_core : Option Int
  client_type : Option String
  envs : Option (List String)
  bins : Option (List String)
  depends : Option (List String)
  packages : Option (List String)
deriving DecidableEq

/-- A scanned plugin (`_Plugin`): path is kept implicit, the selection logic
only consults category, name, manifest and source-repo identity. -/
structure PluginM where
  cat : String
  name : String
  config : PlgConfigM
  repo_name : String
  repo_url : String
deriving DecidableEq

/-- A plugin repository (`_PluginsRepo`) as the selection pipeline sees it:
its identifying info plus the plugin list `load_plugins` produced and the
`failed` flag of its git handle. -/
structure PRepo where
  id : Nat
  priority : Int
  branch : String
  version : String
  url : String
  failed : Bool
  plugins : List PluginM
deriving DecidableEq

/-! ## Repo registration (`Repos` in `loader/core/types.py`)

`Repos.add` validates the URL against
`_RE_REPO = re.compile(r"https://(?:ghp_[0-9A-z]{36}@)?github.com/.+/.+")`
before touching any state.  Note that the dots of `github.com` are regex
metacharacters (any non-newline character), and `.+/.+` only demands a `/`
preceded and followed by at least one non-newline character. -/

/-- Regex `.` flavour: the next character exists and is not a newline. -/
def vsNl : List Char → Bool
  | [] => false
  | c :: _ => c != '\n'

/-- After at least one character has been consumed by the first `.+`, look
for a `/` followed by a non-newline character; the `/` may also be consumed
by the first `.+` itself. -/
def dpAux : List Char → Bool
  | [] => false
  | c :: rest =>
    (c == '/' && vsNl rest) || (c != '\n' && dpAux rest)

/-- Match `.+/.+` at the head of `l` (prefix match). -/
def dpsdp : List Char → Bool
  | [] => false
  | c :: rest => c != '\n' && dpAux rest

/-- Match the optional `(?:ghp_[0-9A-z]{36}@)` group; return the remainder. -/
def tokenGroup (l : List Char) : Option (List Char) :=
  if l.take 4 = ghpPre ∧ 41 ≤ l.length ∧ ((l.drop 4).take 36).all isClass ∧
      (l.drop 40).take 1 = ['@'] then
    some (l.drop 41)
  else none

/-- Match `github.com/` where `.` is the regex any-character; return the
remainder. -/
def githubSeg (l : List Char) : Option (List Char) :=
  if l.take 6 = String.data "github" ∧ vsNl (l.drop 6) ∧
      (l.drop 7).take 4 = String.data "com/" then
    some (l.drop 11)
  else none

/-- `_RE_REPO.match(url)` as a Boolean (the regex is unanchored at the end,
so a prefix match suffices; the optional token group backtracks to empty if
the rest fails after it). -/
def reRepoMatch (url : String) : Bool :=
  let l := url.data
  if l.take 8 = String.data "https://" then
    let r := l.drop 8
    let viaTok :=
      match tokenGroup r with
      | some r2 =>
        match githubSeg r2 with
        | some r3 => dpsdp r3
        | none => false
      | none => false
    viaTok ||
      (match githubSeg r with
       | some r3 => dpsdp r3
       | none => false)
  else false

/-- One persisted document of the `repos` Store collection. -/
structure RepoDoc where
  priority : Int
  branch : String
  version : String
  url : String
deriving DecidableEq

/-- The state `Repos.add` can touch: the id counter (`_PluginsRepo._counter`),
the in-memory list `Repos._plugins`, the persisted `repos` collection, and
the repos sentinel file (`true` = `.sig_repos` exists). -/
structure ReposState where
  nextId : Nat
  plugins : List PRepo
  dbRepos : List RepoDoc
  sigRepos : Bool
deriving DecidableEq

/-- Stable ascending insertion by priority (Python `list.sort(key=priority)`). -/
def insertPrioAsc (x : PRepo) : List PRepo → List PRepo
  | [] => [x]
  | y :: ys => if y.priority ≤ x.priority then y :: insertPrioAsc x ys else x :: y :: ys

/-- `Repos.sort`: sort the repo list by ascending priority (stable). -/
def Repos.sort (l : List PRepo) : List PRepo := l.foldr insertPrioAsc []

/-- `Repos.get` with a URL argument: first repo whose info URL equals it. -/
def Repos.getByUrl (l : List PRepo) (url : String) : Option PRepo :=
  l.find? (·.url == url)

/-- `Repos.add`: validate the URL and reject duplicates, else parse a new
`_PluginsRepo` (fresh id, empty version), append, sort, persist the document
and remove the repos sentinel. -/
def Repos.add (priority : Int) (branch url : String) (st : ReposState) : ReposState :=
  if !(reRepoMatch url) || (Repos.getByUrl st.plugins url).isSome then st
  else
    let repo : PRepo :=
      { id := st.nextId, priority := priority, branch := branch, version := "",
        url := url, failed := false, plugins := [] }
    { nextId := st.nextId + 1,
      plugins := Repos.sort (st.plugins ++ [repo]),
      dbRepos := st.dbRepos ++
        [{ priority := priority, branch := branch, version := "", url := url }],
      sigRepos := false }

/-! ## Git repo handles (`_BaseRepo` in `loader/core/types.py`)

The git working copy behind a handle is modelled by `GitState`: per-branch
commit logs (newest first, as `iter_commits` yields them), the checked-out
ref and a detached flag.  External git effects (`remote().fetch()`,
`remote().pull()`) are supplied as oracle data in `FetchRes`; a handle whose
clone failed carries `git = none` (the source's `_git is None`, i.e. the
`failed` property). -/

/-- One commit as the loader reads it (`summary`, `author.name`, `hexsha`,
`count()`). -/
structure GitCommit where
  hexsha : String
  summary : String
  author : String
  count : Nat
deriving DecidableEq

/-- The local git working copy. -/
structure GitState where
  branchLog : List (String × List GitCommit)
  detached : Bool
  current : String
  headSha : String
deriving DecidableEq

/-- `RepoInfo` (see `loader/types.py`) with the derived fields `count`,
`max_count` and `branches` the loader maintains. -/
structure RepoInfoM where
  id : Int
  priority : Int
  branch : String
  version : String
  url : String
  count : Nat
  max_count : Nat
  branches : List String
deriving DecidableEq

/-- A `_BaseRepo` handle: info, optional git state (`none` = clone failed),
and the recorded `(status, stderr)` error pair. -/
structure LRepo where
  info : RepoInfoM
  git : Option GitState
  errorCode : Int
  stderr : String
deriving DecidableEq

/-- The `failed` property: `self._git is None`. -/
def LRepo.failed (r : LRepo) : Bool := r.git.isNone

/-- `iter_commits(branch)`: the branch log, newest first. -/
def logOf (g : GitState) (branch : String) : List GitCommit :=
  ((g.branchLog.find? (·.1 == branch)).map (·.2)).getD []

/-- The head commit of a branch. -/
def headOf (g : GitState) (branch : String) : Option GitCommit :=
  (logOf g branch).head?

/-- Python `str.isnumeric` restricted to ASCII digits (enough for the
version strings the loader handles). -/
def isNumericStr (s : String) : Bool := s ≠ "" && s.data.all Char.isDigit

/-- `self._git.commit(version)` for a non-numeric ref: resolve the hexsha
against the known commits; `BadName` is modelled by `none` (the source
suppresses it). -/
def commitByRef (g : GitState) (ref : String) : Option GitCommit :=
  (g.branchLog.foldl (fun acc p => acc ++ p.2) []).find? (·.hexsha == ref)

/-- `_BaseRepo._get_commit` for a string version: a numeric string is
interpreted as a commit distance on the tracked branch (equal to the head
count, or reached by skipping `head_count - input_count` commits); anything
else resolves as a ref.  A `BadName` on the numeric path (unknown branch) is
approximated by `none`. -/
def getCommit (g : GitState) (branch : String) (version : String) : Option GitCommit :=
  if isNumericStr version then
    match headOf g branch with
    | none => none
    | some commit =>
      let inputCount := (version.toNat?).getD 0
      let headCount := commit.count
      if inputCount = headCount then some commit
      else if inputCount < headCount then
        ((logOf g branch).drop (headCount - inputCount)).head?
      else none
  else commitByRef g version

/-- `_BaseRepo._version_exists`: the version is truthy and resolves. -/
def versionExists (r : LRepo) (version : String) : Bool :=
  version ≠ "" &&
    (match r.git with
     | some g => (getCommit g r.info.branch version).isSome
     | none => false)

/-- `_BaseRepo._branch_exists`: the branch name is truthy, the handle is not
failed, and the branch is among the local heads. -/
def branchExists (r : LRepo) (branch : String) : Bool :=
  branch ≠ "" &&
    (match r.git with
     | some g => (g.branchLog.find? (·.1 == branch)).isSome
     | none => false)

/-- Oracle data for one `fetch()` call: either the git error the remote
fetch raised, or the remote heads (`info.ref.remote_head` with the log each
new local head would track) together with the post-pull log of the selected
branch. -/
inductive FetchRes where
  | err (status : Int) (stderr : String)
  | ok (entries : List (String × List GitCommit)) (pulled : List GitCommit)
deriving DecidableEq

/-- `(e.stderr or 'null').strip()`. -/
def stderrOf (s : String) : String := if s = "" then "null" else s.trim

/-- Create a local head for each remote head not present locally. -/
def addMissingHeads (g : GitState) (entries : List (String × List GitCommit)) : GitState :=
  entries.foldl
    (fun g e =>
      if (g.branchLog.find? (·.1 == e.1)).isSome then g
      else { g with branchLog := g.branchLog ++ [e] })
    g

/-- Python-set union of branch-name lists. -/
def namesUnion (a b : List String) : List String :=
  b.foldl (fun acc n => if n ∈ acc then acc else acc ++ [n]) a

/-- `_BaseRepo.fetch`.  A failed handle returns immediately.  Otherwise the
remote fetch either fails (recording the error and marking the handle
failed) or yields remote heads; then the tracked branch is selected (falling
back to the first local head, marking the info dirty), force-checked-out and
force-pulled, the pinned version is resolved (falling back to the head
commit, marking dirty), `count`, `max_count` and the branch set are updated.
The returned Boolean is the dirty flag (`true` = the source persists the
info via the Store). -/
def fetchRepo (res : FetchRes) (r : LRepo) : LRepo × Bool :=
  match r.git with
  | none => (r, false)
  | some g =>
    match res with
    | .err code stderr =>
      ({ r with git := none, errorCode := code, stderr := stderrOf stderr }, false)
    | .ok entries pulled =>
      let g1 : GitState := addMissingHeads g entries
      let knownBranch : Bool :=
        (r.info.branch ≠ "" : Bool) && (g1.branchLog.find? (·.1 == r.info.branch)).isSome
      let branch : String :=
        if knownBranch then r.info.branch else (g1.branchLog.map (·.1)).headD ""
      let changed0 : Bool := !knownBranch
      let g2 : GitState :=
        if g1.detached || g1.current != branch then
          { g1 with detached := false, current := branch }
        else g1
      let g3 : GitState :=
        { g2 with branchLog := g2.branchLog.map (fun p => if p.1 = branch then (p.1, pulled) else p) }
      let headC : Option GitCommit := (logOf g3 branch).head?
      let g4 : GitState := { g3 with headSha := (headC.map (fun c => c.hexsha)).getD "" }
      let commit : Option GitCommit :=
        if r.info.version ≠ "" then getCommit g4 branch r.info.version else none
      let version : String :=
        match commit with
        | some _ => r.info.version
        | none => (headC.map (fun c => c.hexsha)).getD ""
      let changed : Bool := changed0 || commit.isNone
      let cnt : Nat :=
        match commit with
        | some c => c.count
        | none => (headC.map (fun c => c.count)).getD 0
      let info : RepoInfoM :=
        { r.info with
          branch := branch, version := version, count := cnt,
          max_count := (headC.map (fun c => c.count)).getD 0,
          branches := namesUnion r.info.branches (g4.branchLog.map (·.1)) }
      ({ r with info := info, git := some g4 }, changed)

/-- `_BaseRepo.checkout_version`: force-checkout the pinned version commit
when the handle is live and HEAD is elsewhere (leaving HEAD detached). -/
def checkout_version (r : LRepo) : LRepo :=
  match r.git with
  | none => r
  | some g =>
    if g.headSha ≠ r.info.version then
      { r with git := some { g with detached := true, headSha := r.info.version } }
    else r

/-- `_BaseRepo.checkout_branch`: force-checkout the tracked branch when the
handle is live and HEAD is detached or on another branch. -/
def checkout_branch (r : LRepo) : LRepo :=
  match r.git with
  | none => r
  | some g =>
    if g.detached || g.current != r.info.branch then
      let g1 : GitState :=
        { g with detached := false, current := r.info.branch,
                 headSha := ((headOf g r.info.branch).map (fun c => c.hexsha)).getD "" }
      { r with git := some g1 }
    else r

/-- An `Update` record (`loader/types.py`). -/
structure UpdateM where
  summary : String
  author : String
  version : String
  count : Nat
  url : String
deriving DecidableEq

/-- `Update.parse`: the web URL is `safe(repo_url)/commit/hexsha` (the repo
URL is passed through `safe_url` by the callers). -/
def updateParse (repoUrl : String) (c : GitCommit) : UpdateM :=
  { summary := c.summary, author := c.author, version := c.hexsha,
    count := c.count, url := repoUrl ++ "/commit/" ++ c.hexsha }

/-- Walk the log until the pinned version is reached; `none` when the pinned
version never appears (the source then clears the collected data). -/
def collectNew (version url : String) : List GitCommit → Option (List UpdateM)
  | [] => none
  | c :: cs =>
    if c.hexsha = version then some []
    else (collectNew version url cs).map (fun d => updateParse url c :: d)

/-- `_BaseRepo.new_commits`. -/
def new_commits (r : LRepo) : List UpdateM :=
  match r.git with
  | none => []
  | some g =>
    if versionExists r r.info.version then
      (collectNew r.info.version (safe_url r.info.url) (logOf g r.info.branch)).getD []
    else []

/-- `_BaseRepo.old_commits`: skip commits until the pinned version is seen,
then return up to `limit` commits after it. -/
def old_commits (limit : Int) (r : LRepo) : List UpdateM :=
  match r.git with
  | none => []
  | some g =>
    if 0 < limit ∧ versionExists r r.info.version then
      match (logOf g r.info.branch).dropWhile (fun c => c.hexsha ≠ r.info.version) with
      | [] => []
      | _ :: tl => (tl.take limit.toNat).map (updateParse (safe_url r.info.url))
    else []

/-! ## Plugin selection (`init_repos` in `loader/core/main.py`)

`init_repos` (after its fetch/sentinel guard) iterates the priority-sorted
repos, applies the eligibility predicates to every scanned plugin, installs
survivors into the selection dictionary (later repos override earlier
entries), pops core builtins, closes under `depends`, and removes plugins
with conflicting package specifiers.  `Ctx` carries the ambient state the
predicates consult.  Only the override log lines are collected; the other
log output carries no further state. -/

/-- Ambient state consulted by the eligibility predicates:
`Repos.get_core().info.count`, `get_client_type()`, the removed-plugin name
set (`RemovedPlugins`, modelled from the spec: a plugin is ineligible if its
name is in the removed set), the process environment, the set of executables
resolvable on PATH (`shutil.which`), and the filesystem facts behind
`_CoreRepo.get_plugins` (the entries of `plugins/builtin/` and the
directories of the process working directory, which the source's bare
`isdir(_)` call actually consults). -/
structure Ctx where
  core_count : Int
  client_type : Option String
  removed : List String
  env : List (String × String)
  bins : List String
  builtinListing : List String
  cwdDirs : List String
deriving DecidableEq

/-- `os.environ.get(key)`. -/
def envGet (ctx : Ctx) (key : String) : Option String :=
  ((ctx.env.find? (·.1 == key)).map (·.2))

/-- Truthiness of `os.environ.get(key)`: present and non-empty. -/
def envTruthy (ctx : Ctx) (key : String) : Bool :=
  match envGet ctx key with
  | some v => v != ""
  | none => false

/-- `shutil.which(b)` as a Boolean. -/
def whichB (ctx : Ctx) (b : String) : Bool := ctx.bins.contains b

/-- Python truthiness of an optional int (`None` and `0` are falsy). -/
def intTruthy : Option Int → Bool
  | some m => m != 0
  | none => false

/-- Python truthiness of an optional string (`None` and `""` are falsy). -/
def strTruthy : Option String → Bool
  | some s => s != ""
  | none => false

/-- Python `str.lower` (ASCII approximation). -/
def lowerStr (s : String) : String := ⟨s.data.map Char.toLower⟩

/-- `conf.client_type.lower() != client_type` (the right side is `None` when
no credential is configured, and a string never equals `None`). -/
def clientTypeMismatch (ct : String) (cl : Option String) : Bool :=
  match cl with
  | some s => lowerStr ct != s
  | none => true

/-- The first declared env var that is absent or empty. -/
def missingEnv (ctx : Ctx) : Option (List String) → Option String
  | none => none
  | some es => if es.isEmpty then none else es.find? (fun e => !envTruthy ctx e)

/-- The first declared executable that does not resolve on PATH. -/
def missingBin (ctx : Ctx) : Option (List String) → Option String
  | none => none
  | some bs => if bs.isEmpty then none else bs.find? (fun b => !whichB ctx b)

/-- The eligibility chain of `init_repos`, first failure wins; `none` means
the plugin is eligible.  Mirrors the source's predicate order: `available`,
removed set, `min_core`, `max_core`, `client_type`, `envs`, `bins`. -/
def elig_reason (ctx : Ctx) (plg : PluginM) : Option String :=
  let conf := plg.config
  if conf.available ≠ some true then some "not available"
  else if plg.name ∈ ctx.removed then some "removed"
  else if intTruthy conf.min_core ∧ ctx.core_count < conf.min_core.getD 0 then
    some ("min core version " ++ toString (conf.min_core.getD 0) ++
      " required, current " ++ toString ctx.core_count)
  else if intTruthy conf.max_core ∧ conf.max_core.getD 0 < ctx.core_count then
    some ("max core version " ++ toString (conf.max_core.getD 0) ++
      " required, current " ++ toString ctx.core_count)
  else if strTruthy conf.client_type ∧
      clientTypeMismatch (conf.client_type.getD "") ctx.client_type then
    some ("client type " ++ lowerStr (conf.client_type.getD "") ++ " required")
  else
    match missingEnv ctx conf.envs with
    | some e => some ("env " ++ e ++ " required")
    | none =>
      match missingBin ctx conf.bins with
      | some b => some ("bin " ++ b ++ " required")
      | none => none

/-- The selection dictionary `plugins`, insertion ordered. -/
abbrev PMap := List (String × PluginM)

/-- Dictionary lookup. -/
def lookupP (m : PMap) (k : String) : Option PluginM :=
  ((m.find? (·.1 == k)).map (·.2))

/-- Dictionary update: replace in place when the key exists, else append. -/
def insertP (m : PMap) (k : String) (v : PluginM) : PMap :=
  if (m.find? (·.1 == k)).isSome then
    m.map (fun kv => if kv.1 == k then (k, v) else kv)
  else m ++ [(k, v)]

/-- `del plugins[k]`. -/
def eraseP (m : PMap) (k : String) : PMap := m.filter (·.1 != k)

/-- The dictionary keys. -/
def keysP (m : PMap) : List String := m.map (·.1)

/-- Process one scanned plugin: drop it with a reason, or install it in the
selection dictionary, logging an override when a previous entry existed. -/
def processPlugin (ctx : Ctx) (st : PMap × List String) (plg : PluginM) :
    PMap × List String :=
  match elig_reason ctx plg with
  | some _ => st
  | none =>
    let old := lookupP st.1 plg.name
    let m := insertP st.1 plg.name plg
    match old with
    | some o =>
      (m, st.2 ++ ["Plugin: [" ++ plg.cat ++ "/" ++ plg.name ++
        "] is overriding Repo: (" ++ safe_url o.repo_url ++ ")"])
    | none => (m, st.2)

/-- Process one repo: a failed repo is skipped, otherwise all its scanned
plugins run through `processPlugin`. -/
def processRepo (ctx : Ctx) (st : PMap × List String) (repo : PRepo) :
    PMap × List String :=
  if repo.failed then st
  else repo.plugins.foldl (processPlugin ctx) st

/-- The repo traversal of `init_repos`: selection dictionary plus the
override log lines, repos taken in the order `Repos.iter_repos` yields. -/
def selectPhase (ctx : Ctx) (repos : List PRepo) : PMap × List String :=
  repos.foldl (processRepo ctx) ([], [])

/-- `_CoreRepo.get_plugins`: the entries of the core's `plugins/builtin/`
directory, filtered by `isdir(_)` — note that the source's `isdir` call
receives the bare entry name and therefore resolves it against the process
working directory — and by not starting with an underscore. -/
def get_plugins (ctx : Ctx) : List String :=
  ctx.builtinListing.filter (fun n => ctx.cwdDirs.contains n && !pyStartswith n "_")

/-- The builtin-shadowing pass: pop every selected plugin whose name appears
in `get_plugins`. -/
def popBuiltins (bl : List String) (m : PMap) : PMap :=
  bl.foldl (fun m b => if (lookupP m b).isSome then eraseP m b else m) m

/-- `del plugins[k]`, raising (`none`) when the key is absent — the source's
`resolve_depends` deletes by name and a second missing dependency of the
same plugin triggers a `KeyError`. -/
def delKey (m : PMap) (k : String) : Option PMap :=
  if (lookupP m k).isSome then some (eraseP m k) else none

/-- The inner dependency loop of `resolve_depends` for one plugin: every
dependency missing from the selection deletes the plugin (again). -/
def checkDeps (nm : String) : List String → PMap → Option (PMap × Bool)
  | [], m => some (m, false)
  | d :: ds, m =>
    if (lookupP m d).isSome then checkDeps nm ds m
    else
      match delKey m nm with
      | none => none
      | some m1 => (checkDeps nm ds m1).map (fun p => (p.1, true))

/-- One pass of `resolve_depends` over the snapshot
`tuple(plugins.values())`; the Boolean is `all_ok`. -/
def depPass : List PluginM → PMap → Option (PMap × Bool)
  | [], m => some (m, true)
  | p :: ps, m =>
    match p.config.depends with
    | none => depPass ps m
    | some ds =>
      if ds.isEmpty then depPass ps m
      else
        match checkDeps p.name ds m with
        | none => none
        | some (m1, missing) =>
          (depPass ps m1).map (fun q => (q.1, q.2 && !missing))

/-- The `while plugins and not all_ok` loop; the fuel `m.length + 1` is
sufficient because every not-yet-ok pass deletes at least one entry. -/
def resolveDependsFuel : Nat → PMap → Option PMap
  | 0, _ => none
  | fuel + 1, m =>
    if m.isEmpty then some m
    else
      match depPass (m.map (·.2)) m with
      | none => none
      | some (m1, ok) => if ok then some m1 else resolveDependsFuel fuel m1

/-- `resolve_depends`: `none` models the `KeyError` path. -/
def resolve_depends (m : PMap) : Option PMap :=
  resolveDependsFuel (m.length + 1) m

/-- `grab_requirements`: the union of the `packages` sets of the surviving
plugins (a Python set, enumerated in first-seen order). -/
def grab_requirements (m : PMap) : List String :=
  m.foldl
    (fun acc kv =>
      match kv.2.config.packages with
      | some ps => ps.foldl (fun a p => if p ∈ a then a else a ++ [p]) acc
      | none => acc)
    []

/-- The conflict-removal loop: for each conflicting specifier, delete every
selected plugin whose `packages` contain it. -/
def removeConflicting (conflicts : List String) (m : PMap) : PMap :=
  conflicts.foldl
    (fun m c =>
      m.filter (fun kv =>
        match kv.2.config.packages with
        | some ps => !(ps.contains c)
        | none => true))
    m

/-- The selection portion of `init_repos` (after the fetch/sentinel guard,
before the filesystem copy): repo traversal with overrides, builtin pop,
dependency closure, conflict elimination, second closure.  Returns the final
selection dictionary and the override log lines; `none` models the paths on
which the source raises. -/
def init_repos (ctx : Ctx) (repos : List PRepo) : Option (PMap × List String) :=
  let sel := selectPhase ctx repos
  let m0 := popBuiltins (get_plugins ctx) sel.1
  match resolve_depends m0 with
  | none => none
  | some m1 =>
    let reqs := grab_requirements m1
    if reqs.isEmpty then some (m1, sel.2)
    else
      match grab_conflicts reqs with
      | none => none
      | some conflicts =>
        if conflicts.isEmpty then some (m1, sel.2)
        else
          match resolve_depends (removeConflicting conflicts m1) with
          | none => none
          | some m2 => some (m2, sel.2)

/-! ## Constraint engine (`_ConstraintData`, `_Constraints`, `Constraints`)

Rules carry optionally-set components over `repo_name / category / name`;
Python truthiness lets an empty-string component behave like an unset one.
The three kinds are held in the fixed construction order
`(_Include(), _Exclude(), _In())`. -/

/-- A parsed constraint rule (`_ConstraintData`). -/
structure CData where
  repo_name : Option String
  plg_cat : Option String
  plg_name : Option String
  raw : String
deriving DecidableEq

/-- Python `str.strip().lower()` over a string (ASCII approximation). -/
def pyStripLower (s : String) : String :=
  ⟨(((s.data.dropWhile Char.isWhitespace).reverse.dropWhile Char.isWhitespace).reverse).map
    Char.toLower⟩

/-- `_ConstraintData.parse`: case-fold, split on `/`, and fill the
components by the arity cases of the source (1 token = plugin name,
`a/b` = repo+plugin, `a/` = category, `a/b/` = repo+category; any other
arity falls back to treating the first token as a plugin name). -/
def CData.parse (data : String) : CData :=
  let d := pyStripLower data
  let parts := d.splitOn "/"
  if parts.length = 3 then
    { repo_name := some (parts.getD 0 ""), plg_cat := some (parts.getD 1 ""),
      plg_name := none, raw := d }
  else if parts.length = 2 then
    if parts.getD 1 "" ≠ "" then
      { repo_name := some (parts.getD 0 ""), plg_cat := none,
        plg_name := some (parts.getD 1 ""), raw := d }
    else
      { repo_name := none, plg_cat := some (parts.getD 0 ""),
        plg_name := none, raw := d }
  else
    { repo_name := none, plg_cat := none, plg_name := some (parts.getD 0 ""), raw := d }

/-- `_ConstraintData.match`: every truthy component must equal the
corresponding input, and at least one component must be truthy. -/
def cdMatch (cd : CData) (rn pc pn : String) : Bool :=
  if strTruthy cd.repo_name && (cd.repo_name.getD "" != rn) then false
  else if strTruthy cd.plg_cat && (cd.plg_cat.getD "" != pc) then false
  else if strTruthy cd.plg_name && (cd.plg_name.getD "" != pn) then false
  else strTruthy cd.repo_name || strTruthy cd.plg_cat || strTruthy cd.plg_name

/-- `_Constraint.match`: some rule of the kind matches. -/
def anyMatch (rules : List CData) (rn pc pn : String) : Bool :=
  rules.any (fun cd => cdMatch cd rn pc pn)

/-- The three rule sets in their construction order
(`_Include(), _Exclude(), _In()`). -/
structure CState3 where
  inc : List CData
  exc : List CData
  inn : List CData
deriving DecidableEq

/-- Which constraint object `_Constraints.match` returned (drop), if any. -/
inductive CKind where
  | exc
  | inn
deriving DecidableEq

/-- `_Constraints.match`: iterate the kinds in construction order, skipping
empty ones; a matching include breaks (keep), a matching exclude is
returned, a non-matching non-empty in-set is returned. -/
def constraintsMatch (cs : CState3) (rn pc pn : String) : Option CKind :=
  if !cs.inc.isEmpty && anyMatch cs.inc rn pc pn then none
  else if !cs.exc.isEmpty && anyMatch cs.exc rn pc pn then some .exc
  else if !cs.inn.isEmpty && !anyMatch cs.inn rn pc pn then some .inn
  else none

/-- Modelled from the spec: the include/exclude/in decision procedure as
claim C8 words it — any matching include keeps; otherwise any matching
exclude drops (returning it); otherwise a non-empty in-set with no matching
rule drops (returning it); all other cases keep. -/
def constraintsMatchClaim (cs : CState3) (rn pc pn : String) : Option CKind :=
  if anyMatch cs.inc rn pc pn then none
  else if anyMatch cs.exc rn pc pn then some .exc
  else if !cs.inn.isEmpty && !anyMatch cs.inn rn pc pn then some .inn
  else none

/-- The state `Constraints.clear` can touch: the in-memory rule sets, the
persisted `constraint` collection (documents `(type, data)`), and the repos
sentinel. -/
structure ConstraintsFull where
  mem : CState3
  db : List (String × String)
  sigRepos : Bool
deriving DecidableEq

/-- `Constraints.clear`: with a type name, look the kind up (unknown types
are a no-op) and clear only that in-memory set; without one, clear all
three.  If anything was cleared, the source drops the whole persisted
`constraint` collection and removes the repos sentinel. -/
def Constraints.clear (ctype : Option String) (st : ConstraintsFull) : ConstraintsFull :=
  match ctype with
  | some t =>
    let tt := pyStripLower t
    if tt = "include" then
      let cnt := st.mem.inc.length
      let st1 := { st with mem := { st.mem with inc := [] } }
      if cnt ≠ 0 then { st1 with db := [], sigRepos := false } else st1
    else if tt = "exclude" then
      let cnt := st.mem.exc.length
      let st1 := { st with mem := { st.mem with exc := [] } }
      if cnt ≠ 0 then { st1 with db := [], sigRepos := false } else st1
    else if tt = "in" then
      let cnt := st.mem.inn.length
      let st1 := { st with mem := { st.mem with inn := [] } }
      if cnt ≠ 0 then { st1 with db := [], sigRepos := false } else st1
    else st
  | none =>
    let cnt := st.mem.inc.length + st.mem.exc.length + st.mem.inn.length
    let st1 := { st with mem := { inc := [], exc := [], inn := [] } }
    if cnt ≠ 0 then { st1 with db := [], sigRepos := false } else st1

/-! ## Concrete instances used by the claim theorems -/

/-- A manifest that only sets `available = true`. -/
def confAvail : PlgConfigM :=
  { available := some true, min_core := none, max_core := none, client_type := none,
    envs := none, bins := none, depends := none, packages := none }

/-- The ambient state of the override scenario (claim C2): a bot client,
nothing removed, no core builtins. -/
def ctxOverride : Ctx :=
  { core_count := 100, client_type := some "bot", removed := [], env := [],
    bins := [], builtinListing := [], cwdDirs := [] }

/-- `plugins/x/echo` as shipped by the priority-10 repo. -/
def plgEchoHigh : PluginM :=
  { cat := "x", name := "echo", config := confAvail,
    repo_name := "a.rten", repo_url := "https://github.com/a/rten" }

/-- `plugins/x/echo` as shipped by the priority-0 repo. -/
def plgEchoLow : PluginM :=
  { cat := "x", name := "echo", config := confAvail,
    repo_name := "b.rzero", repo_url := "https://github.com/b/rzero" }

/-- The priority-10 repo of the override scenario. -/
def repoTen : PRepo :=
  { id := 0, priority := 10, branch := "main", version := "",
    url := "https://github.com/a/rten", failed := false, plugins := [plgEchoHigh] }

/-- The priority-0 repo of the override scenario. -/
def repoZero : PRepo :=
  { id := 1, priority := 0, branch := "main", version := "",
    url := "https://github.com/b/rzero", failed := false, plugins := [plgEchoLow] }

/-- The ambient state of the builtin-shadowing scenario (claim C3): the core
ships `plugins/builtin/ping` (a directory), but no directory named `ping`
exists relative to the process working directory. -/
def ctxBuiltinPing : Ctx :=
  { core_count := 100, client_type := some "bot", removed := [], env := [],
    bins := [], builtinListing := ["ping"], cwdDirs := [] }

/-- An eligible plugin named like the core builtin. -/
def plgPing : PluginM :=
  { cat := "misc", name := "ping", config := confAvail,
    repo_name := "c.rping", repo_url := "https://github.com/c/rping" }

/-- A repo shipping the `ping` plugin. -/
def repoPing : PRepo :=
  { id := 2, priority := 0, branch := "main", version := "",
    url := "https://github.com/c/rping", failed := false, plugins := [plgPing] }

/-- A plugin that depends on `base`. -/
def plgOnBase : PluginM :=
  { cat := "x", name := "tool", config := { confAvail with depends := some ["base"] },
    repo_name := "d.r", repo_url := "https://github.com/d/r" }

/-- The dependency target. -/
def plgBase : PluginM :=
  { cat := "x", name := "base", config := confAvail,
    repo_name := "d.r", repo_url := "https://github.com/d/r" }

/-- A selection on which `resolve_depends` is a fixed point. -/
def demoDepsMap : PMap := [("tool", plgOnBase), ("base", plgBase)]

/-- A populated repo state used by the C6 witness. -/
def demoReposState : ReposState :=
  { nextId := 1,
    plugins := [{ id := 0, priority := 5, branch := "main", version := "",
                  url := "https://github.com/x/y", failed := false, plugins := [] }],
    dbRepos := [{ priority := 5, branch := "main", version := "",
                  url := "https://github.com/x/y" }],
    sigRepos := true }

/-- A handle whose clone failed (claim C7). -/
def demoFailedRepo : LRepo :=
  { info := { id := 3, priority := 0, branch := "main",
              version := "0123456789012345678901234567890123456789",
              url := "https://github.com/e/f", count := 0, max_count := 0, branches := [] },
    git := none, errorCode := 128, stderr := "fatal: unable to access" }

/-- A constraint state with rules of all three kinds (claim C10 witness). -/
def demoConstraintsFull : ConstraintsFull :=
  { mem := { inc := [CData.parse "abc"], exc := [CData.parse "cat/"],
             inn := [CData.parse "repo/plg"] },
    db := [("include", "abc"), ("exclude", "cat/"), ("in", "repo/plg")],
    sigRepos := true }

/-! ## Theorems -/

/-- The generated pattern tuple, written out, ends with the extra `(!=)`. -/
theorem genPattern_eq_litPattern : genPattern = litPattern := by decide

/-- The source's breakpoint condition is: the matched pattern contains none
of `<=`, `<`, `!=`. -/
theorem bpCode_eq_bpLit : bpCode = bpLit := by
  funext check
  simp [bpCode, bpLit, opSequence, Bool.or_assoc]

/-- C1 counterexample: on the input set `{requests>=2.28, requests<=2.0}`
the resolver does not return `requests>=2.28` among the conflicts, so the
returned set is not `{requests>=2.28, requests<=2.0}`. -/
theorem c1_counterexample :
    "requests>=2.28" ∉ (grab_conflicts c1Input).getD [] := by decide

/-- C1 amended: on the input set `{requests>=2.28, requests<=2.0}` the
resolver returns exactly `{requests<=2.0}` — the `>=2.28` specifier is
consumed as the breakpoint, only the incompatible upper bound is reported. -/
theorem c1_amended : grab_conflicts c1Input = some ["requests<=2.0"] := by decide

/-- C4 counterexample: on `{a!=1}` the source removes the operator via the
18th pattern `(!=)` and reports no conflict, while the 17-pattern procedure
the claim describes leaves `a!=1` as a conflict. -/
theorem c4_counterexample :
    grab_conflicts ["a!=1"] = some [] ∧ grab_conflictsClaim ["a!=1"] = some ["a!=1"] := by
  decide

/-- C4 amended: for every input, the resolver checks exactly the 17 listed
patterns followed by `(!=)` (18 in total, in this order), removes the
matched operators, and declares a breakpoint exactly when the matched
pattern contains none of `<=`, `<`, `!=`. -/
theorem c4_amended (reqs : List String) : grab_conflicts reqs = grab_conflictsLit reqs := by
  unfold grab_conflicts grab_conflictsLit
  rw [genPattern_eq_litPattern, bpCode_eq_bpLit]

/-- C2 counterexample: in the override scenario the final selection maps
`echo` to the plugin of the priority-10 repo, not to the plugin of the
priority-0 repo. -/
theorem c2_counterexample :
    (init_repos ctxOverride (Repos.sort [repoTen, repoZero])).map
        (fun x => lookupP x.1 "echo") = some (some plgEchoHigh) ∧
      plgEchoHigh ≠ plgEchoLow := by decide

/-- C2 amended: with two repos of priorities 10 and 0 both shipping an
eligible `plugins/x/echo`, the priority-0 repo is sorted (and iterated)
first, the priority-10 repo overrides it, so the final selection holds the
priority-10 plugin and an override log line is emitted. -/
theorem c2_amended :
    init_repos ctxOverride (Repos.sort [repoTen, repoZero]) =
      some ([("echo", plgEchoHigh)],
        ["Plugin: [x/echo] is overriding Repo: (https://github.com/b/rzero)"]) := by
  decide

/-- C3: `plugins/builtin/ping` is a core builtin directory (listed, not
underscore-prefixed), yet after `init_repos` the selection still contains
`ping`, because `_CoreRepo.get_plugins` tests `isdir(_)` on the bare entry
name — resolved against the process working directory — and so fails to
report the builtin. -/
theorem c3_code_eval :
    "ping" ∈ ctxBuiltinPing.builtinListing ∧ pyStartswith "ping" "_" = false ∧
      (init_repos ctxBuiltinPing [repoPing]).map (fun x => keysP x.1) = some ["ping"] := by
  decide

/-- C6: a URL that the repo-URL regex rejects makes `Repos.add` return
before touching the in-memory list, the persisted collection or the
sentinel, and no error is raised. -/
theorem c6_add_invalid_noop (priority : Int) (branch url : String) (st : ReposState)
    (h : reRepoMatch url = false) : Repos.add priority branch url st = st := by
  simp [Repos.add, h]

/-- C6 witness at `add_repo(0, "main", "ftp://example/x")`. -/
theorem c6_witness :
    reRepoMatch "ftp://example/x" = false ∧
      Repos.add 0 "main" "ftp://example/x" demoReposState = demoReposState :=
  ⟨by decide, c6_add_invalid_noop 0 "main" "ftp://example/x" demoReposState (by decide)⟩

/-- C7: a handle whose clone failed is inert — `fetch` (for every remote
outcome), `checkout_version` and `checkout_branch` return the handle
unchanged without persisting anything, and `new_commits`/`old_commits`
return the empty list; all five operations are total. -/
theorem c7_failed_inert (r : LRepo) (res : FetchRes) (limit : Int) (h : r.git = none) :
    fetchRepo res r = (r, false) ∧ checkout_version r = r ∧ checkout_branch r = r ∧
      new_commits r = [] ∧ old_commits limit r = [] := by
  refine ⟨?_, ?_, ?_, ?_, ?_⟩ <;>
    simp [fetchRepo, checkout_version, checkout_branch, new_commits, old_commits, h]

/-- C7 witness on a concrete failed handle. -/
theorem c7_witness :
    demoFailedRepo.git = none ∧
      fetchRepo (.ok [] []) demoFailedRepo = (demoFailedRepo, false) ∧
      checkout_version demoFailedRepo = demoFailedRepo ∧
      checkout_branch demoFailedRepo = demoFailedRepo ∧
      new_commits demoFailedRepo = [] ∧ old_commits 5 demoFailedRepo = [] :=
  ⟨rfl, c7_failed_inert demoFailedRepo (.ok [] []) 5 rfl⟩

/-- C8: the constraint decision evaluates include, then exclude, then in
(empty kinds skipped): a matching include keeps the plugin; otherwise a
matching exclude is returned (drop); otherwise a non-empty in-set with no
matching rule is returned (drop); every other case keeps. -/
theorem c8_match_order (cs : CState3) (rn pc pn : String) :
    constraintsMatch cs rn pc pn = constraintsMatchClaim cs rn pc pn := by
  rcases cs with ⟨inc, exc, inn⟩
  cases inc <;> cases exc <;>
    simp [constraintsMatch, constraintsMatchClaim, anyMatch]

/-- C10: clearing a valid type with a non-empty in-memory set drops the
whole persisted constraint collection (all three types) and removes the
repos sentinel, while in memory only the named type is cleared. -/
theorem c10_clear_drops_all (st : ConstraintsFull) (h : st.mem.inc ≠ []) :
    Constraints.clear (some "include") st =
      { mem := { inc := [], exc := st.mem.exc, inn := st.mem.inn },
        db := [], sigRepos := false } := by
  have hlen : st.mem.inc.length ≠ 0 := fun hl => h (List.length_eq_zero.mp hl)
  simp [Constraints.clear, hlen, show pyStripLower "include" = "include" from by decide]

/-- C10 witness on a state holding rules of all three kinds. -/
theorem c10_witness :
    demoConstraintsFull.mem.inc ≠ [] ∧
      Constraints.clear (some "include") demoConstraintsFull =
        { mem := { inc := [], exc := demoConstraintsFull.mem.exc,
                   inn := demoConstraintsFull.mem.inn },
          db := [], sigRepos := false } :=
  ⟨by decide, c10_clear_drops_all demoConstraintsFull (by decide)⟩

/-- A clean inner dependency loop (`missing = false`) leaves the selection
untouched and certifies that every dependency was present. -/
theorem checkDeps_false (nm : String) :
    ∀ (ds : List String) (m m1 : PMap), checkDeps nm ds m = some (m1, false) →
      m1 = m ∧ ∀ d ∈ ds, (lookupP m d).isSome := by
  intro ds
  induction ds with
  | nil =>
    intro m m1 h
    simp [checkDeps] at h
    exact ⟨h.symm, by simp⟩
  | cons d ds ih =>
    intro m m1 h
    simp only [checkDeps] at h
    by_cases hd : (lookupP m d).isSome
    · rw [if_pos hd] at h
      obtain ⟨hm, hall⟩ := ih m m1 h
      refine ⟨hm, ?_⟩
      intro x hx
      rcases List.mem_cons.mp hx with hx | hx
      · exact hx ▸ hd
      · exact hall x hx
    · rw [if_neg hd] at h
      cases hk : delKey m nm with
      | none => rw [hk] at h; simp at h
      | some m2 =>
        rw [hk] at h
        rcases Option.map_eq_some'.mp h with ⟨q, _, hq⟩
        simp at hq

/-- A pass that reports `all_ok` deleted nothing, and every snapshot
plugin's dependencies were present. -/
theorem depPass_true :
    ∀ (snap : List PluginM) (m m1 : PMap), depPass snap m = some (m1, true) →
      m1 = m ∧ ∀ p ∈ snap, ∀ d ∈ p.config.depends.getD [], (lookupP m d).isSome := by
  intro snap
  induction snap with
  | nil =>
    intro m m1 h
    simp [depPass] at h
    exact ⟨h.symm, by simp⟩
  | cons p ps ih =>
    intro m m1 h
    simp only [depPass] at h
    cases hdep : p.config.depends with
    | none =>
      rw [hdep] at h
      obtain ⟨hm, hall⟩ := ih m m1 h
      refine ⟨hm, ?_⟩
      intro q hq
      rcases List.mem_cons.mp hq with rfl | hq
      · simp [hdep]
      · exact hall q hq
    | some ds =>
      simp only [hdep] at h
      by_cases hds : ds.isEmpty
      · rw [if_pos hds] at h
        obtain ⟨hm, hall⟩ := ih m m1 h
        refine ⟨hm, ?_⟩
        intro q hq
        rcases List.mem_cons.mp hq with rfl | hq
        · simp [hdep, List.isEmpty_iff.mp hds]
        · exact hall q hq
      · rw [if_neg hds] at h
        cases hc : checkDeps p.name ds m with
        | none => rw [hc] at h; simp at h
        | some pr =>
          rw [hc] at h
          obtain ⟨m2, miss⟩ := pr
          rcases Option.map_eq_some'.mp h with ⟨q, hq1, hq2⟩
          have hq3 : q.1 = m1 ∧ (q.2 && !miss) = true := by
            constructor
            · exact congrArg Prod.fst hq2
            · exact congrArg Prod.snd hq2
          have hmiss : miss = false := by
            rcases Bool.and_eq_true_iff.mp hq3.2 with ⟨_, hnm⟩
            simpa using hnm
          have hok : q.2 = true := (Bool.and_eq_true_iff.mp hq3.2).1
          subst hmiss
          obtain ⟨hm2, hds2⟩ := checkDeps_false p.name ds m m2 hc
          have hq' : depPass ps m = some (m1, true) := by
            have hqe : q = (m1, true) := by
              cases q
              simp_all
            rw [hm2] at hq1
            rw [← hqe]
            exact hq1
          obtain ⟨hm, hall⟩ := ih m m1 hq'
          refine ⟨hm, ?_⟩
          intro r hr
          rcases List.mem_cons.mp hr with rfl | hr
          · intro d hd
            exact hds2 d (by simpa [hdep] using hd)
          · exact hall r hr

/-- After a completed closure loop, every surviving plugin's dependencies
are keys of the surviving selection (any fuel). -/
theorem resolveDependsFuel_closed :
    ∀ (fuel : Nat) (m m1 : PMap), resolveDependsFuel fuel m = some m1 →
      ∀ kv ∈ m1, ∀ d ∈ kv.2.config.depends.getD [], (lookupP m1 d).isSome := by
  intro fuel
  induction fuel with
  | zero => intro m m1 h; simp [resolveDependsFuel] at h
  | succ n ih =>
    intro m m1 h
    simp only [resolveDependsFuel] at h
    by_cases hm : m.isEmpty
    · rw [if_pos hm] at h
      obtain rfl : m = m1 := Option.some.inj h
      intro kv hkv
      rw [List.isEmpty_iff.mp hm] at hkv
      cases hkv
    · rw [if_neg hm] at h
      cases hp : depPass (m.map (·.2)) m with
      | none => rw [hp] at h; simp at h
      | some pr =>
        obtain ⟨m2, ok⟩ := pr
        rw [hp] at h
        have h2 : (if ok = true then some m2 else resolveDependsFuel n m2) = some m1 := h
        by_cases hok : ok = true
        · rw [if_pos hok] at h2
          obtain rfl : m2 = m1 := Option.some.inj h2
          have hok2 : depPass (m.map (·.2)) m = some (m2, true) := by rw [hp, hok]
          obtain ⟨rfl, hall⟩ := depPass_true (m.map (·.2)) m m2 hok2
          intro kv hkv d hd
          exact hall kv.2 (List.mem_map_of_mem (·.2) hkv) d hd
        · rw [if_neg hok] at h2
          exact ih m2 m1 h2

/-- C5: whenever the dependency-closure step of `init_repos` terminates
(without raising), every plugin still present in the selection has all names
of its `depends` set present as keys of the selection, for every initial
selection. -/
theorem c5_depends_closed (m m1 : PMap) (h : resolve_depends m = some m1) :
    ∀ kv ∈ m1, ∀ d ∈ kv.2.config.depends.getD [], (lookupP m1 d).isSome :=
  resolveDependsFuel_closed (m.length + 1) m m1 h

/-- C5 witness on a two-plugin selection with a satisfied dependency. -/
theorem c5_witness :
    resolve_depends demoDepsMap = some demoDepsMap ∧
      ∀ kv ∈ demoDepsMap, ∀ d ∈ kv.2.config.depends.getD [],
        (lookupP demoDepsMap d).isSome :=
  ⟨by decide, c5_depends_closed demoDepsMap demoDepsMap (by decide)⟩

/-- A token match never starts on a character other than `g`. -/
theorem ghpMatch_head (c : Char) (cs : List Char) (h : c ≠ 'g') :
    ghpMatch (c :: cs) = none := by
  rw [ghpMatch, if_neg]
  rintro ⟨h1, -⟩
  rw [List.take_succ_cons] at h1
  simp [ghpPre] at h1
  exact h h1.1

/-- Unpack a successful token match. -/
theorem ghpMatch_some (l rest : List Char) (h : ghpMatch l = some rest) :
    l.take 4 = ghpPre ∧ 40 ≤ l.length ∧ ((l.drop 4).take 36).all isClass ∧
      rest = l.drop 40 := by
  by_cases hc : l.take 4 = ghpPre ∧ 40 ≤ l.length ∧ ((l.drop 4).take 36).all isClass
  · rw [ghpMatch, if_pos hc] at h
    exact ⟨hc.1, hc.2.1, hc.2.2, (Option.some.inj h).symm⟩
  · rw [ghpMatch, if_neg hc] at h
    cases h

/-- A token match consumes exactly 40 characters. -/
theorem ghpMatch_some_length (l rest : List Char) (h : ghpMatch l = some rest) :
    rest.length + 40 = l.length := by
  obtain ⟨-, hlen, -, hrest⟩ := ghpMatch_some l rest h
  rw [hrest, List.length_drop]
  omega

/-- The scanner on the empty list, any fuel. -/
theorem subFuel_nil (f : Nat) : subFuel f [] = [] := by
  cases f <;> rfl

/-- The scanner's result does not depend on the fuel, provided the fuel
covers the input length. -/
theorem subFuel_fuelFree :
    ∀ (n : Nat) (l : List Char) (f g : Nat), l.length ≤ n → l.length ≤ f →
      l.length ≤ g → subFuel f l = subFuel g l := by
  intro n
  induction n with
  | zero =>
    intro l f g hn _ _
    rw [List.length_eq_zero.mp (Nat.le_zero.mp hn), subFuel_nil, subFuel_nil]
  | succ n ih =>
    intro l f g hn hf hg
    cases l with
    | nil => rw [subFuel_nil, subFuel_nil]
    | cons c cs =>
      rw [List.length_cons] at hn hf hg
      cases f with
      | zero => omega
      | succ f1 =>
        cases g with
        | zero => omega
        | succ g1 =>
          simp only [subFuel]
          cases hm : ghpMatch (c :: cs) with
          | none =>
            have hcs := ih cs f1 g1 (by omega) (by omega) (by omega)
            simp only [hcs]
          | some rest =>
            have hl := ghpMatch_some_length (c :: cs) rest hm
            rw [List.length_cons] at hl
            have hr := ih rest f1 g1 (by omega) (by omega) (by omega)
            simp only [hr]

/-- Unfold `reSub` at a token match. -/
theorem reSub_cons_match (c : Char) (cs rest : List Char)
    (h : ghpMatch (c :: cs) = some rest) :
    reSub (c :: cs) = privateChars ++ reSub rest := by
  have hl := ghpMatch_some_length (c :: cs) rest h
  rw [List.length_cons] at hl
  show subFuel (c :: cs).length (c :: cs) = _
  rw [List.length_cons]
  simp only [subFuel, h]
  rw [subFuel_fuelFree cs.length rest cs.length rest.length (by omega) (by omega) le_rfl]
  rfl

/-- Unfold `reSub` at a non-matching position. -/
theorem reSub_cons_none (c : Char) (cs : List Char)
    (h : ghpMatch (c :: cs) = none) :
    reSub (c :: cs) = c :: reSub cs := by
  show subFuel (c :: cs).length (c :: cs) = _
  rw [List.length_cons]
  simp only [subFuel, h]
  rfl

/-- The scanner passes over a prefix that contains no `g`. -/
theorem reSub_append_nog :
    ∀ (pre x : List Char), (∀ c ∈ pre, c ≠ 'g') →
      reSub (pre ++ x) = pre ++ reSub x := by
  intro pre
  induction pre with
  | nil => intro x _; rfl
  | cons c pre1 ih =>
    intro x h
    have hc : c ≠ 'g' := h c (List.mem_cons_self c pre1)
    rw [List.cons_append, reSub_cons_none c (pre1 ++ x) (ghpMatch_head c (pre1 ++ x) hc)]
    rw [ih x (fun d hd => h d (List.mem_cons_of_mem c hd))]
    rfl

/-- Every prefix of an all-class list is all-class. -/
theorem all_take_of_all (p : Char → Bool) (l : List Char) (n : Nat)
    (h : l.all p) : (l.take n).all p := by
  rw [List.all_eq_true] at h ⊢
  intro x hx
  exact h x (List.take_subset n l hx)

/-- Class-prefix reflection: the scanner only ever shortens runs of class
characters (a copied character keeps its class, a 40-character match — all
of whose characters are in the class — becomes the 7 class characters of
`private`), so an all-class prefix of length at most 40 in the output forces
an all-class prefix of the same length in the input. -/
theorem classPrefix_reflect :
    ∀ (b : Nat) (l : List Char), l.length ≤ b → ∀ n, n ≤ 40 →
      n ≤ (reSub l).length → ((reSub l).take n).all isClass →
      n ≤ l.length ∧ (l.take n).all isClass := by
  intro b
  induction b with
  | zero =>
    intro l hb n _ h1 _
    rw [List.length_eq_zero.mp (Nat.le_zero.mp hb)] at h1 ⊢
    have hn : n = 0 := Nat.le_zero.mp (by simpa [reSub, subFuel_nil] using h1)
    subst hn
    simp
  | succ b ih =>
    intro l hb n hn h1 h2
    cases l with
    | nil =>
      have hn0 : n = 0 := Nat.le_zero.mp (by simpa [reSub, subFuel_nil] using h1)
      subst hn0
      simp
    | cons c cs =>
      cases hm : ghpMatch (c :: cs) with
      | some rest =>
        obtain ⟨ht4, hlen, hcls, -⟩ := ghpMatch_some _ _ hm
        refine ⟨by omega, ?_⟩
        have h40 : ((c :: cs).take 40).all isClass := by
          have hsplit : (c :: cs).take 40 = (c :: cs).take 4 ++ ((c :: cs).drop 4).take 36 := by
            have h4 : (40 : Nat) = 4 + 36 := by norm_num
            rw [h4, List.take_add]
          rw [hsplit, List.all_append, ht4, hcls]
          decide
        have htt : (c :: cs).take n = ((c :: cs).take 40).take n := by
          rw [List.take_take]
          congr 1
          omega
        rw [htt]
        exact all_take_of_all isClass _ n h40
      | none =>
        rw [reSub_cons_none c cs hm] at h1 h2
        cases n with
        | zero => simp
        | succ k =>
          rw [List.take_succ_cons] at h2
          rw [List.length_cons] at h1
          have hck : isClass c = true ∧ ((reSub cs).take k).all isClass := by
            simpa using h2
          rw [List.length_cons] at hb
          obtain ⟨hkle, hktake⟩ :=
            ih cs (by omega) k (by omega) (by omega) hck.2
          refine ⟨by simp [List.length_cons]; omega, ?_⟩
          rw [List.take_succ_cons]
          simp [hck.1, hktake]

/-- If no token matches at a position of the input, no token matches at the
corresponding position of the output: the literal `ghp_` of a new match
would have to consist of original characters (no suffix of `private`
overlaps a prefix of `ghp_`), and the 36 following class characters of the
output reflect back to 36 class characters of the input, so the input would
have matched already. -/
theorem ghpMatch_reSub_head (c : Char) (cs : List Char)
    (h : ghpMatch (c :: cs) = none) : ghpMatch (c :: reSub cs) = none := by
  cases hm : ghpMatch (c :: reSub cs) with
  | none => rfl
  | some rest =>
    exfalso
    obtain ⟨ht4, hlen, hcls, -⟩ := ghpMatch_some _ _ hm
    rw [List.take_succ_cons] at ht4
    have hpair : c = 'g' ∧ (reSub cs).take 3 = ['h', 'p', '_'] := by
      simpa [ghpPre] using ht4
    cases cs with
    | nil => simp [reSub, subFuel_nil] at hpair
    | cons d ds =>
      cases hm2 : ghpMatch (d :: ds) with
      | some r2 =>
        rw [reSub_cons_match d ds r2 hm2,
          List.take_append_of_le_length (by decide)] at hpair
        exact absurd hpair.2 (by decide)
      | none =>
        rw [reSub_cons_none d ds hm2, List.take_succ_cons] at hpair
        have hd : d = 'h' ∧ (reSub ds).take 2 = ['p', '_'] := by
          have h2 := hpair.2
          simpa using h2
        cases ds with
        | nil => simp [reSub, subFuel_nil] at hd
        | cons e es =>
          cases hm3 : ghpMatch (e :: es) with
          | some r3 =>
            rw [reSub_cons_match e es r3 hm3,
              List.take_append_of_le_length (by decide)] at hd
            exact absurd hd.2 (by decide)
          | none =>
            rw [reSub_cons_none e es hm3, List.take_succ_cons] at hd
            have he : e = 'p' ∧ (reSub es).take 1 = ['_'] := by
              have h2 := hd.2
              simpa using h2
            cases es with
            | nil => simp [reSub, subFuel_nil] at he
            | cons f fs =>
              cases hm4 : ghpMatch (f :: fs) with
              | some r4 =>
                rw [reSub_cons_match f fs r4 hm4,
                  List.take_append_of_le_length (by decide)] at he
                exact absurd he.2 (by decide)
              | none =>
                rw [reSub_cons_none f fs hm4, List.take_succ_cons] at he
                have hf : f = '_' := by
                  have h2 := he.2
                  simpa using h2
                have hsub : reSub (d :: e :: f :: fs) =
                    'h' :: 'p' :: '_' :: reSub fs := by
                  rw [reSub_cons_none d (e :: f :: fs) hm2,
                    reSub_cons_none e (f :: fs) hm3,
                    reSub_cons_none f fs hm4, hd.1, he.1, hf]
                rw [hsub] at hlen hcls
                have hlen2 : 36 ≤ (reSub fs).length := by
                  simp [List.length_cons] at hlen
                  omega
                have hcls2 : ((reSub fs).take 36).all isClass := by
                  simpa using hcls
                obtain ⟨hfl, hfc⟩ :=
                  classPrefix_reflect fs.length fs le_rfl 36 (by norm_num) hlen2 hcls2
                rw [hpair.1, hd.1, he.1, hf] at h
                rw [ghpMatch, if_pos] at h
                · cases h
                · refine ⟨by simp [ghpPre], ?_, ?_⟩
                  · simp [List.length_cons]
                    omega
                  · simpa using hfc

/-- The scanner output contains no token match, so scanning it again copies
every character: `reSub` is idempotent. -/
theorem reSub_idem_aux :
    ∀ (b : Nat) (l : List Char), l.length ≤ b → reSub (reSub l) = reSub l := by
  intro b
  induction b with
  | zero =>
    intro l hb
    rw [List.length_eq_zero.mp (Nat.le_zero.mp hb)]
    rfl
  | succ b ih =>
    intro l hb
    cases l with
    | nil => rfl
    | cons c cs =>
      rw [List.length_cons] at hb
      cases hm : ghpMatch (c :: cs) with
      | some rest =>
        have hl := ghpMatch_some_length (c :: cs) rest hm
        rw [List.length_cons] at hl
        rw [reSub_cons_match c cs rest hm,
          reSub_append_nog privateChars (reSub rest) (by decide),
          ih rest (by omega)]
      | none =>
        rw [reSub_cons_none c cs hm,
          reSub_cons_none c (reSub cs) (ghpMatch_reSub_head c cs hm),
          ih cs (by omega)]

/-- C9: `safe_url` is idempotent — applying the token-redacting
transformation twice gives the same result as applying it once, for every
string. -/
theorem c9_safe_url_idempotent (u : String) : safe_url (safe_url u) = safe_url u := by
  show (⟨reSub (String.data ⟨reSub u.data⟩)⟩ : String) = (⟨reSub u.data⟩ : String)
  exact congrArg String.mk (reSub_idem_aux u.data.length u.data le_rfl)
